import Mathlib

/-!
Verification development for the Moodle AI backend (FastAPI + Qdrant + Bedrock).

The Python modules `app/rag.py`, `app/main.py`, `app/quiz.py` and
`app/embeddings.py` are shallowly embedded below.  Text is modelled as
`List Char` (Python `str` slicing and `strip` become `List.take`/`List.drop`
and trimming on character lists), machine calls to external services
(embedding provider, completion provider, the Qdrant server) are modelled as
explicit `Except`-valued inputs, and the Qdrant collection state touched by
the indexing pipeline is an in-memory association list.  Floating point
vector components carry no information used by any property here, so vectors
are modelled as `List Int` (only their length and identity matter).
-/

/-- Python whitespace characters recognised by `str.strip()`. -/
def isWs (c : Char) : Bool :=
  c = ' ' || c = '\t' || c = '\n' || c = '\x0d' || c = '\x0b' || c = '\x0c'

/-- Model of Python `str.strip()` on a character list. -/
def listTrim (l : List Char) : List Char :=
  ((l.dropWhile isWs).reverse.dropWhile isWs).reverse

/-- Model of Python `str.upper()` (ASCII case mapping suffices here). -/
def strUpper (s : String) : String :=
  String.mk (s.data.map Char.toUpper)

/-- Model of Python `str.strip()` on a `String`. -/
def pyStrip (s : String) : String :=
  String.mk (listTrim s.data)

/-!
## Text Chunker — `chunk_text` in `app/rag.py`

The source walks the text with a `while start < text_len` loop:
each iteration takes the window `text[start:start+chunk_size]`, strips it,
keeps it when the stripped window is non-empty and longer than 50
characters, then sets `start = end - overlap` and breaks when
`start >= text_len`.  The loop is embedded with a fuel parameter; with
`overlap < chunk_size` the start advances by `chunk_size - overlap ≥ 1`
each round, so fuel `text.length + 1` always suffices (proved below as
fuel-independence, which is the termination content of the source loop).
-/

/-- One-loop embedding of the `while` loop of `chunk_text`. -/
def chunkGo (text : List Char) (chunk_size overlap : Nat) : Nat → Nat → List (List Char)
  | 0, _ => []
  | fuel + 1, start =>
    if start < text.length then
      let chunk := listTrim ((text.drop start).take chunk_size)
      let rest :=
        if start + chunk_size - overlap < text.length then
          chunkGo text chunk_size overlap fuel (start + chunk_size - overlap)
        else []
      if chunk.length ≠ 0 ∧ 50 < chunk.length then chunk :: rest else rest
    else []

/-- `chunk_text(text, chunk_size=1000, overlap=200)` from `app/rag.py`. -/
def chunk_text (text : List Char) (chunk_size : Nat := 1000) (overlap : Nat := 200) :
    List (List Char) :=
  chunkGo text chunk_size overlap (text.length + 1) 0

/-- The window starts visited by the `chunk_text` loop (before the noise
filter), same walk as `chunkGo`. -/
def startsGo (textLen chunk_size overlap : Nat) : Nat → Nat → List Nat
  | 0, _ => []
  | fuel + 1, start =>
    if start < textLen then
      start ::
        (if start + chunk_size - overlap < textLen then
          startsGo textLen chunk_size overlap fuel (start + chunk_size - overlap)
        else [])
    else []

/-- All window starts of `chunk_text` on a text of length `textLen`. -/
def chunkStarts (textLen chunk_size overlap : Nat) : List Nat :=
  startsGo textLen chunk_size overlap (textLen + 1) 0

/-- The noise filter of `chunk_text` (`if chunk and len(chunk) > 50`) as a
boolean predicate, used to relate `chunk_text` with the window starts. -/
def keepChunk (c : List Char) : Bool := decide (c.length ≠ 0 ∧ 50 < c.length)

/-!
## Vector store model — write path (`app/rag.py` indexing, `app/qdrant_client.py`)

The collections touched by `index_course_content` are modelled as an
association list from collection name to a collection carrying its
configured vector size (`VectorParams(size=VECTOR_SIZE, ...)`) and its
points.  `delete_collection` on a missing name is a no-op (the source wraps
it in `try/except: pass`), `ensure_collection_exists` creates the collection
only when absent.
-/

/-- `VECTOR_SIZE = 384` from `app/rag.py`. -/
def VECTOR_SIZE : Nat := 384

/-- The payload attached to every indexed point (`PointStruct(payload=...)`). -/
structure Payload where
  text : List Char
  course_id : Int
  course_name : String
  source : String
  dtype : String
  doc_index : Nat
  chunk_index : Nat
deriving DecidableEq

/-- An indexed point (`PointStruct`): id, embedding vector, payload.  Vector
components are opaque; only length and identity matter. -/
structure Point where
  id : Nat
  vector : List Int
  payload : Payload
deriving DecidableEq

/-- A collection with its configured vector size and stored points. -/
structure Collection where
  vsize : Nat
  points : List Point
deriving DecidableEq

/-- The store: collection name to collection. -/
abbrev Store := List (String × Collection)

def lookupCollection (st : Store) (name : String) : Option Collection :=
  (st.find? (fun e => e.1 == name)).map (fun e => e.2)

/-- `client.delete_collection` wrapped in `try/except: pass`: deleting a
missing collection is a no-op. -/
def delete_collection (st : Store) (name : String) : Store :=
  st.filter (fun e => e.1 != name)

/-- `ensure_collection_exists` from `app/rag.py`: create only when absent,
with the configured `VECTOR_SIZE`. -/
def ensure_collection_exists (st : Store) (name : String) : Store :=
  match lookupCollection st name with
  | some _ => st
  | none => st ++ [(name, ⟨VECTOR_SIZE, []⟩)]

/-- Insert-or-overwrite by point id. -/
def upsertPoints (ps new : List Point) : List Point :=
  ps.filter (fun p => new.all (fun q => q.id != p.id)) ++ new

/-- `client.upsert(collection_name, points)`. -/
def upsert (st : Store) (name : String) (new : List Point) : Store :=
  st.map (fun e =>
    if e.1 == name then (e.1, Collection.mk e.2.vsize (upsertPoints e.2.points new)) else e)

/-- The deterministic collection name `f"course_{course_id}_chunks"`. -/
def collectionName (course_id : Int) : String :=
  "course_" ++ toString course_id ++ "_chunks"

/-!
## Indexing pipeline — `index_course_content` in `app/rag.py`
-/

/-- An input document: a dict read with `doc.get('type', 'text')`,
`doc.get('source', 'Unknown')`, `doc.get('content', '')`. -/
structure Document where
  dtype : Option String := none
  source : Option String := none
  content : Option (List Char) := none

/-- `raise ValueError("No valid content to index. ...")` — the spec's
`NoContentError`. -/
inductive IndexError where
  | noContent (msg : String)
deriving DecidableEq

/-- The statistics dict returned by `index_course_content`. -/
structure IndexResult where
  success : Bool
  course_id : Int
  course_name : String
  documents_processed : Nat
  chunks_indexed : Nat
  total_content_chars : Nat
  collection : String
deriving DecidableEq

/-- The inner `for chunk_idx, chunk in enumerate(chunks)` loop: embed each
chunk; on embedding failure the chunk is skipped (`except ...: continue`).
Returns the produced points and the next point id. -/
def processChunks (embed : List Char → Except Unit (List Int)) (course_id : Int)
    (course_name source dtype : String) (doc_idx : Nat) :
    List (List Char) → Nat → Nat → List Point × Nat
  | [], _, point_id => ([], point_id)
  | chunk :: rest, chunk_idx, point_id =>
    match embed chunk with
    | .ok v =>
      let p : Point :=
        ⟨point_id, v, ⟨chunk, course_id, course_name, source, dtype, doc_idx, chunk_idx⟩⟩
      let pr := processChunks embed course_id course_name source dtype doc_idx rest
        (chunk_idx + 1) (point_id + 1)
      (p :: pr.1, pr.2)
    | .error _ =>
      processChunks embed course_id course_name source dtype doc_idx rest
        (chunk_idx + 1) point_id

/-- The outer `for doc_idx, doc in enumerate(documents)` loop: strip the
content, skip documents whose stripped content is empty or shorter than 50
characters, otherwise chunk and embed.  Returns the accumulated points, the
next point id, and the accumulated `total_content_length`. -/
def processDocs (embed : List Char → Except Unit (List Int)) (course_id : Int)
    (course_name : String) :
    List Document → Nat → Nat → Nat → List Point × Nat × Nat
  | [], _, point_id, total => ([], point_id, total)
  | doc :: rest, doc_idx, point_id, total =>
    let content := listTrim (doc.content.getD [])
    let source := doc.source.getD "Unknown"
    let dtype := doc.dtype.getD "text"
    if content.length = 0 ∨ content.length < 50 then
      processDocs embed course_id course_name rest (doc_idx + 1) point_id total
    else
      let chunks := chunk_text content 1000 200
      let pr := processChunks embed course_id course_name source dtype doc_idx chunks 0 point_id
      let dr := processDocs embed course_id course_name rest (doc_idx + 1) pr.2
        (total + content.length)
      (pr.1 ++ dr.1, dr.2.1, dr.2.2)

/-- `index_course_content(course_id, course_name, documents)`: delete the old
collection, recreate it, process all documents, fail with the no-content
error when zero points were produced (the collection is left created and
empty), otherwise upsert all points and return statistics. -/
def index_course_content (embed : List Char → Except Unit (List Int)) (st : Store)
    (course_id : Int) (course_name : String) (documents : List Document) :
    Store × Except IndexError IndexResult :=
  let collection_name := collectionName course_id
  let st1 := delete_collection st collection_name
  let st2 := ensure_collection_exists st1 collection_name
  let pr := processDocs embed course_id course_name documents 0 0 0
  if pr.1.isEmpty then
    (st2, Except.error (IndexError.noContent
      "No valid content to index. All documents were empty or too short."))
  else
    (upsert st2 collection_name pr.1,
     Except.ok ⟨true, course_id, course_name, documents.length, pr.1.length,
       pr.2.2, collection_name⟩)

/-!
## RAG read path — `get_course_status`, `rag_answer` in `app/rag.py` and
`chat` in `app/main.py`

The outcome of `client.get_collection` for the course's collection is
modelled by `StoreStatus`: the lookup either raises (backend unreachable, or
the collection absent — both land in the same `except` clause of the
source), or succeeds with a point count.  Question embedding, the similarity
search and the completion provider are explicit `Except`-valued inputs.
-/

/-- Outcome of `client.get_collection(collection_name)` for the course. -/
inductive StoreStatus where
  | unreachable
  | absent
  | present (points_count : Nat)
deriving DecidableEq

/-- The dict returned by `get_course_status`. -/
structure CourseStatus where
  course_id : Int
  indexed : Bool
  chunks : Nat
  collection : String
  message : String
deriving DecidableEq

/-- `get_course_status(course_id)` from `app/rag.py`: any exception from the
collection lookup is converted to the not-indexed result. -/
def get_course_status (st : StoreStatus) (course_id : Int) : CourseStatus :=
  let name := collectionName course_id
  match st with
  | .present n =>
    ⟨course_id, true, n, name, "Course has " ++ toString n ++ " indexed chunks"⟩
  | _ => ⟨course_id, false, 0, name, "Course has not been indexed yet"⟩

/-- A search hit's payload fields read with `hit.payload.get(...)`. -/
structure Hit where
  source : Option String
  text : Option String
deriving DecidableEq

/-- Fixed message returned by `rag_answer` when the collection is missing or
empty. -/
def notIndexedMsg : String :=
  "⚠️ This course content has not been indexed yet. Please contact your administrator to enable AI support for this course."

/-- Fixed message returned by `rag_answer` when the search returns no hits. -/
def noRelevantMsg : String :=
  "I couldn\x27t find relevant information in the course materials to answer your question. Could you rephrase or ask something else?"

/-- Context assembly: hit texts prefixed with their source label, joined by
the delimiter. -/
def buildContext (hits : List Hit) : String :=
  String.intercalate "\n\n---\n\n"
    (hits.map (fun h => "Source: " ++ h.source.getD "Unknown" ++ "\n" ++ h.text.getD ""))

/-- The grounded prompt of `rag_answer`. -/
def ragPrompt (context question : String) : String :=
  "You are an AI tutor for a Moodle course. Answer the student\x27s question using ONLY the course materials provided below.\n\nCOURSE MATERIALS:\n"
    ++ context
    ++ "\n\nSTUDENT QUESTION:\n"
    ++ question
    ++ "\n\nINSTRUCTIONS:\n- Give a clear, helpful answer based on the materials\n- If the materials don\x27t contain enough info, say so politely\n- Be conversational and student-friendly\n- Keep your answer focused and concise (2-4 paragraphs max)\n\nANSWER:"

/-- The exceptions `rag_answer` lets propagate (`raise` in the embed, search
and completion blocks). -/
inductive RagError where
  | embedFailed
  | searchFailed
  | llmFailed
deriving DecidableEq

/-- `rag_answer(course_id, question)` from `app/rag.py`.  A returned string
is a normal return; `Except.error` is a propagated exception. -/
def rag_answer (st : StoreStatus) (embedQ : Except Unit (List Int))
    (search : Except Unit (List Hit)) (llm : String → Except Unit String)
    (question : String) : Except RagError String :=
  match st with
  | .present n =>
    if n = 0 then Except.ok notIndexedMsg
    else
      match embedQ with
      | .error _ => Except.error RagError.embedFailed
      | .ok _ =>
        match search with
        | .error _ => Except.error RagError.searchFailed
        | .ok hits =>
          if hits.isEmpty then Except.ok noRelevantMsg
          else
            match llm (ragPrompt (buildContext hits) question) with
            | .ok ans => Except.ok ans
            | .error _ => Except.error RagError.llmFailed
  | _ => Except.ok notIndexedMsg

/-- The JSON body produced by the `/chat` route: either a success dict with
an answer and a mode tag, or the `success: False` error dict. -/
inductive ChatResult where
  | success (answer : String) (mode : String)
  | failure (error : String)
deriving DecidableEq

/-- The general-knowledge tutoring prompt of the `/chat` AI fallback. -/
def aiPrompt (course_name question : String) : String :=
  "You are an AI tutor helping a student in the course: \"" ++ course_name
    ++ "\".\n\nThe student asks: " ++ question
    ++ "\n\nProvide a helpful, clear, and educational response. Be conversational and student-friendly.\n\nGuidelines:\n- Give accurate, helpful information\n- Use simple language appropriate for students\n- If it\x27s a greeting, respond warmly and mention you\x27re ready to help\n- If asked what you can do, explain you can help with course questions, concepts, and learning\n- Keep responses focused and concise (2-4 paragraphs unless more detail is needed)\n- If you don\x27t know something, be honest about it\n\nResponse:"

/-- The AI-fallback tail of `chat`: call the completion provider with the
general-knowledge prompt; on provider failure return the error dict. -/
def aiFallback (llm : String → Except Unit String) (course_name question : String) :
    ChatResult :=
  match llm (aiPrompt course_name question) with
  | .ok answer => ChatResult.success answer "ai"
  | .error _ =>
    ChatResult.failure "AI service temporarily unavailable. Please try again in a moment."

/-- The `/chat` route of `app/main.py`: check the index status, use RAG when
`indexed and chunks > 0`, fall back to the AI path when the course is not
indexed or `rag_answer` raised. -/
def chat (st : StoreStatus) (embedQ : Except Unit (List Int))
    (search : Except Unit (List Hit)) (llm : String → Except Unit String)
    (course_id : Int) (course_name rawQuestion : String) : ChatResult :=
  let question := pyStrip rawQuestion
  let status := get_course_status st course_id
  if status.indexed ∧ 0 < status.chunks then
    match rag_answer st embedQ search llm question with
    | .ok answer => ChatResult.success answer "rag"
    | .error _ => aiFallback llm course_name question
  else aiFallback llm course_name question

/-!
## Quiz validation — `generate_quiz` in `app/quiz.py`

The completion output for a quiz request is parsed with `json.loads` (an
external library call) and then validated; the validation stage is embedded
below, taking the parsed JSON array as input.  A parsed question dict is a
`RawQuestion` (absent keys are `none`; `options` is the parsed JSON object
as an association list).
-/

def OPTION_KEYS : List String := ["A", "B", "C", "D"]

/-- JSON-object key lookup (`options["a"]` etc.). -/
def lookupKey (opts : List (String × String)) (k : String) : Option String :=
  (opts.find? (fun kv => kv.1 == k)).map (fun kv => kv.2)

/-- `set(q["options"].keys()) == OPTION_KEYS` as a boolean on the key list. -/
def sameKeySet (ks : List String) : Bool :=
  ks.all (fun k => OPTION_KEYS.contains k) && OPTION_KEYS.all (fun k => ks.contains k)

/-- A question dict as parsed from the provider's JSON. -/
structure RawQuestion where
  question : Option String
  options : Option (List (String × String))
  correct_answer : Option String
  explanation : Option String
deriving DecidableEq

/-- A validated quiz question (the QuizQuestion schema). -/
structure QuizQuestion where
  question : String
  options : List (String × String)
  correct_answer : String
  explanation : String
deriving DecidableEq

/-- Per-question validation of `generate_quiz`: `none` models a question
dropped by the `except` clause of the per-question `try`. -/
def validateQuestion (q : RawQuestion) : Option QuizQuestion :=
  match q.question, q.options, q.correct_answer, q.explanation with
  | some qs, some opts, some ca, some ex =>
    let opts2? :=
      if sameKeySet (opts.map (fun kv => kv.1)) then some opts
      else
        match lookupKey opts "a", lookupKey opts "b", lookupKey opts "c",
            lookupKey opts "d" with
        | some va, some vb, some vc, some vd =>
          some [("A", va), ("B", vb), ("C", vc), ("D", vd)]
        | _, _, _, _ => none
    match opts2? with
    | none => none
    | some opts2 =>
      let correct := strUpper ca
      if OPTION_KEYS.contains correct then some ⟨qs, opts2, correct, ex⟩
      else none
  | _, _, _, _ => none

/-- `min_count = max(1, int(count * 0.8))`. -/
def quizMin (count : Nat) : Nat := max 1 (count * 8 / 10)

/-- `max_count = int(count * 1.2)` (only triggers a warning in the source). -/
def quizMax (count : Nat) : Nat := count * 12 / 10

/-- The validation stage of `generate_quiz` on the parsed JSON array: reject
when fewer questions than `min_count` arrived, drop individually invalid
questions, reject when fewer than `min_count` survive, and return the first
`count` validated questions. -/
def generate_quiz_validate (count : Nat) (data : List RawQuestion) :
    Except String (List QuizQuestion) :=
  if data.length < quizMin count then
    Except.error "Too few questions"
  else
    let validated := data.filterMap validateQuestion
    if validated.length < quizMin count then
      Except.error "Not enough valid questions"
    else
      Except.ok (validated.take count)

/-- A parsed question that already satisfies the QuizQuestion schema: all
keys present, option keys exactly the uppercase A–D set, the correct answer
already uppercase and among A–D. -/
def wellFormedQ (q : RawQuestion) : Bool :=
  match q with
  | ⟨some _, some opts, some ca, some _⟩ =>
    sameKeySet (opts.map (fun kv => kv.1)) && (strUpper ca == ca) &&
      OPTION_KEYS.contains ca
  | _ => false

/-- The QuizQuestion carrying exactly the fields of a parsed question. -/
def asQuiz (q : RawQuestion) : QuizQuestion :=
  ⟨q.question.getD "", q.options.getD [], q.correct_answer.getD "", q.explanation.getD ""⟩

deriving instance DecidableEq for Except

/-!
## Concrete collaborators used by the scenario theorems
-/

/-- A document whose stripped content is 60 characters, all `a`. -/
def docLongA : Document := { content := some (List.replicate 60 'a') }

/-- A document whose stripped content is 10 characters (below the floor). -/
def docShortB : Document := { content := some (List.replicate 10 'b') }

/-- A document whose stripped content is 60 characters, all `b`. -/
def docLongB : Document := { content := some (List.replicate 60 'b') }

/-- An embedding provider that always succeeds with a 1-component vector. -/
def embedOk1 : List Char → Except Unit (List Int) := fun _ => Except.ok [0]

/-- An embedding provider that fails exactly on text containing `b`. -/
def embedFailB : List Char → Except Unit (List Int) :=
  fun cs => if cs.contains 'b' then Except.error () else Except.ok [0]

/-- An embedding provider returning a 2-component vector (a length different
from `VECTOR_SIZE`). -/
def embedLen2 : List Char → Except Unit (List Int) := fun _ => Except.ok [1, 2]

/-- A completion provider returning a fixed non-empty answer. -/
def llmConst : String → Except Unit String :=
  fun _ => Except.ok "General knowledge answer."

/-- A schema-correct parsed quiz question. -/
def q0 : RawQuestion :=
  ⟨some "Q", some [("A", "1"), ("B", "2"), ("C", "3"), ("D", "4")], some "A", some "E"⟩

/-! ### Chunker lemmas -/

theorem dropWhile_of_all_false (p : Char → Bool) (l : List Char)
    (h : ∀ x ∈ l, p x = false) : l.dropWhile p = l := by
  cases l with
  | nil => rfl
  | cons a t =>
    simp only [List.dropWhile_cons, h a (List.mem_cons_self a t), Bool.false_eq_true,
      if_false]

theorem listTrim_of_no_ws (l : List Char) (h : ∀ x ∈ l, isWs x = false) :
    listTrim l = l := by
  unfold listTrim
  rw [dropWhile_of_all_false isWs l h,
    dropWhile_of_all_false isWs l.reverse (fun x hx => h x (List.mem_reverse.mp hx)),
    List.reverse_reverse]

theorem listTrim_replicate (n : Nat) (c : Char) (hc : isWs c = false) :
    listTrim (List.replicate n c) = List.replicate n c :=
  listTrim_of_no_ws _ (fun x hx => by rw [List.eq_of_mem_replicate hx]; exact hc)

/-- The result of the `chunk_text` loop does not depend on the fuel, as long
as the fuel exceeds the remaining length: this is the termination argument
of the source's `while` loop when `overlap < chunk_size`. -/
theorem chunkGo_fuel_congr (text : List Char) (size overlap : Nat) (h : overlap < size) :
    ∀ fuel₁ fuel₂ start, text.length - start < fuel₁ → text.length - start < fuel₂ →
      chunkGo text size overlap fuel₁ start = chunkGo text size overlap fuel₂ start := by
  intro fuel₁
  induction fuel₁ with
  | zero => intro fuel₂ start h1 h2; omega
  | succ f ih =>
    intro fuel₂ start h1 h2
    cases fuel₂ with
    | zero => omega
    | succ f₂ =>
      simp only [chunkGo]
      by_cases hs : start < text.length
      · simp only [hs, if_true]
        by_cases hn : start + size - overlap < text.length
        · simp only [hn, if_true, ih f₂ (start + size - overlap) (by omega) (by omega)]
        · simp only [hn, if_false]
      · simp only [hs, if_false]

/-- Same fuel-independence for the visited window starts. -/
theorem startsGo_fuel_congr (textLen size overlap : Nat) (h : overlap < size) :
    ∀ fuel₁ fuel₂ start, textLen - start < fuel₁ → textLen - start < fuel₂ →
      startsGo textLen size overlap fuel₁ start = startsGo textLen size overlap fuel₂ start := by
  intro fuel₁
  induction fuel₁ with
  | zero => intro fuel₂ start h1 h2; omega
  | succ f ih =>
    intro fuel₂ start h1 h2
    cases fuel₂ with
    | zero => omega
    | succ f₂ =>
      simp only [startsGo]
      by_cases hs : start < textLen
      · simp only [hs, if_true]
        by_cases hn : start + size - overlap < textLen
        · simp only [hn, if_true, ih f₂ (start + size - overlap) (by omega) (by omega)]
        · simp only [hn, if_false]
      · simp only [hs, if_false]

/-- One-step unfolding of the loop that keeps the fuel unchanged (valid for
sufficient fuel). -/
theorem chunkGo_eq (text : List Char) (size overlap fuel start : Nat)
    (h : overlap < size) (hf : text.length - start < fuel) :
    chunkGo text size overlap fuel start =
      if start < text.length then
        (let chunk := listTrim ((text.drop start).take size)
         let rest :=
           if start + size - overlap < text.length then
             chunkGo text size overlap fuel (start + size - overlap)
           else []
         if chunk.length ≠ 0 ∧ 50 < chunk.length then chunk :: rest else rest)
      else [] := by
  cases fuel with
  | zero => omega
  | succ f =>
    conv_lhs => simp only [chunkGo]
    by_cases hs : start < text.length
    · simp only [hs, if_true]
      by_cases hn : start + size - overlap < text.length
      · simp only [hn, if_true,
          chunkGo_fuel_congr text size overlap h f (f + 1) (start + size - overlap)
            (by omega) (by omega)]
      · simp only [hn, if_false]
    · simp only [hs, if_false]

/-- Evaluation step of the loop on an all-`c` text (no whitespace), used for
the concrete chunking scenarios. -/
theorem chunkGo_replicate_cons (n size overlap fuel start : Nat) (c : Char)
    (hc : isWs c = false) (h : overlap < size) (hf : n - start < fuel)
    (hs : start < n) (h50 : 50 < min size (n - start)) :
    chunkGo (List.replicate n c) size overlap fuel start =
      List.replicate (min size (n - start)) c ::
        (if start + size - overlap < n then
          chunkGo (List.replicate n c) size overlap fuel (start + size - overlap)
        else []) := by
  rw [chunkGo_eq _ _ _ _ _ h (by simpa using hf)]
  simp only [List.length_replicate, List.drop_replicate, List.take_replicate,
    listTrim_replicate _ _ hc, hs, if_true]
  rw [if_pos (by constructor <;> omega)]

/-- One-step unfolding for the starts list. -/
theorem startsGo_eq (textLen size overlap fuel start : Nat)
    (h : overlap < size) (hf : textLen - start < fuel) :
    startsGo textLen size overlap fuel start =
      if start < textLen then
        start ::
          (if start + size - overlap < textLen then
            startsGo textLen size overlap fuel (start + size - overlap)
          else [])
      else [] := by
  cases fuel with
  | zero => omega
  | succ f =>
    conv_lhs => simp only [startsGo]
    by_cases hs : start < textLen
    · simp only [hs, if_true]
      by_cases hn : start + size - overlap < textLen
      · simp only [hn, if_true,
          startsGo_fuel_congr textLen size overlap h f (f + 1) (start + size - overlap)
            (by omega) (by omega)]
      · simp only [hn, if_false]
    · simp only [hs, if_false]

/-! ### C2 — the 2500-character chunking scenario -/

/-- C2: `chunk_text("A"*2500, size=1000, overlap=200)` returns exactly 4
chunks, taken from window starts 0, 800, 1600 and 2400 (the last window
shorter than 1000 characters), and none of the 4 windows is discarded by the
minimum-length filter. -/
theorem chunk_text_four_windows_2500 :
    chunk_text (List.replicate 2500 'A') 1000 200 =
      [List.replicate 1000 'A', List.replicate 1000 'A',
       List.replicate 900 'A', List.replicate 100 'A'] ∧
    chunkStarts 2500 1000 200 = [0, 800, 1600, 2400] ∧
    chunk_text (List.replicate 2500 'A') 1000 200 =
      (chunkStarts 2500 1000 200).map
        (fun s => listTrim (((List.replicate 2500 'A').drop s).take 1000)) ∧
    (∀ ch ∈ chunk_text (List.replicate 2500 'A') 1000 200, 50 < ch.length) ∧
    (List.replicate 100 'A').length < 1000 := by
  have hc : isWs 'A' = false := by decide
  have hmain : chunk_text (List.replicate 2500 'A') 1000 200 =
      [List.replicate 1000 'A', List.replicate 1000 'A',
       List.replicate 900 'A', List.replicate 100 'A'] := by
    unfold chunk_text
    have hfuel : (List.replicate 2500 'A').length + 1 = 2501 := by
      rw [List.length_replicate]
    rw [hfuel]
    rw [chunkGo_replicate_cons 2500 1000 200 2501 0 'A' hc (by omega) (by omega)
        (by omega) (by omega)]
    norm_num
    rw [chunkGo_replicate_cons 2500 1000 200 2501 800 'A' hc (by omega) (by omega)
        (by omega) (by omega)]
    norm_num
    rw [chunkGo_replicate_cons 2500 1000 200 2501 1600 'A' hc (by omega) (by omega)
        (by omega) (by omega)]
    norm_num
    rw [chunkGo_replicate_cons 2500 1000 200 2501 2400 'A' hc (by omega) (by omega)
        (by omega) (by omega)]
    norm_num
  have hstarts : chunkStarts 2500 1000 200 = [0, 800, 1600, 2400] := by decide
  refine ⟨hmain, hstarts, ?_, ?_, by simp only [List.length_replicate]; omega⟩
  · rw [hmain, hstarts]
    simp only [List.map_cons, List.map_nil, List.drop_replicate, List.take_replicate,
      listTrim_replicate _ _ hc]
    norm_num
  · rw [hmain]
    intro ch hch
    simp only [List.mem_cons, List.not_mem_nil, or_false] at hch
    rcases hch with h | h | h | h <;> subst h <;> simp only [List.length_replicate] <;> omega

/-! ### C10 — the duplicated final window -/

/-- C10: when a window reaches the end of the text but the next start is
still below the text length, one further window is emitted that is contained
in the previous chunk: for any whitespace-free text of length exactly 1000
with size 1000 and overlap 200, `chunk_text` returns 2 chunks, the second
equal to the last 200 characters of the first, so the final portion of the
document is indexed twice. -/
theorem chunk_text_duplicate_tail (text : List Char) (h1 : text.length = 1000)
    (h2 : ∀ c ∈ text, isWs c = false) :
    chunk_text text 1000 200 = [text, text.drop 800] ∧
    (text.drop 800).length = 200 ∧
    text.drop 800 <:+ text := by
  refine ⟨?_, by simp [h1], text.take 800, List.take_append_drop 800 text⟩
  have hchunk0 : listTrim ((text.drop 0).take 1000) = text := by
    rw [List.drop_zero, List.take_of_length_le (by omega), listTrim_of_no_ws text h2]
  have hchunk800 : listTrim ((text.drop 800).take 1000) = text.drop 800 := by
    rw [List.take_of_length_le (by simp [h1]),
      listTrim_of_no_ws _ (fun c hc => h2 c (List.mem_of_mem_drop hc))]
  unfold chunk_text
  rw [chunkGo_eq text 1000 200 (text.length + 1) 0 (by omega) (by omega)]
  rw [chunkGo_eq text 1000 200 (text.length + 1) (0 + 1000 - 200) (by omega) (by omega)]
  simp only [hchunk0, hchunk800, h1]
  norm_num [List.length_drop, h1]

/-- Witness for C10 at the all-`a` text of length 1000. -/
theorem chunk_text_duplicate_tail_witness :
    (List.replicate 1000 'a').length = 1000 ∧
    chunk_text (List.replicate 1000 'a') 1000 200 =
      [List.replicate 1000 'a', (List.replicate 1000 'a').drop 800] :=
  ⟨List.length_replicate 1000 'a',
    (chunk_text_duplicate_tail (List.replicate 1000 'a') (List.length_replicate 1000 'a')
      (fun c hc => by rw [List.eq_of_mem_replicate hc]; decide)).1⟩

/-! ### Store lemmas -/

theorem lookup_delete_self (st : Store) (name : String) :
    lookupCollection (delete_collection st name) name = none := by
  unfold lookupCollection delete_collection
  induction st with
  | nil => rfl
  | cons a t ih =>
    by_cases ha : a.1 == name
    · simp only [List.filter_cons, bne, ha, Bool.not_true, if_false]
      exact ih
    · simp only [List.filter_cons, bne, ha, Bool.not_false, if_true, List.find?_cons, ha]
      exact ih

theorem find_append_single (l : Store) (name : String) (c0 : Collection)
    (hall : ∀ e ∈ l, (e.1 == name) = false) :
    (l ++ [(name, c0)]).find? (fun e => e.1 == name) = some (name, c0) := by
  induction l with
  | nil => simp [List.find?]
  | cons a t ih =>
    rw [List.cons_append]
    simp only [List.find?_cons, hall a (by simp)]
    exact ih (fun e he => hall e (by simp [he]))

theorem lookup_recreate (st : Store) (name : String) :
    lookupCollection (ensure_collection_exists (delete_collection st name) name) name =
      some ⟨VECTOR_SIZE, []⟩ := by
  unfold ensure_collection_exists
  rw [lookup_delete_self]
  unfold lookupCollection
  rw [find_append_single _ name _ ?_]
  · rfl
  · intro e he
    have := List.of_mem_filter he
    simpa [bne_iff_ne] using this

theorem lookup_upsert (st : Store) (name : String) (pts : List Point) :
    lookupCollection (upsert st name pts) name =
      (lookupCollection st name).map (fun c => ⟨c.vsize, upsertPoints c.points pts⟩) := by
  unfold lookupCollection upsert
  induction st with
  | nil => rfl
  | cons a t ih =>
    by_cases ha : a.1 == name
    · simp only [List.map_cons, List.find?_cons, ha, if_true]
      simp [ha]
    · have ha' : (a.1 == name) = false := by simpa using ha
      simp only [List.map_cons, List.find?_cons, ha', Bool.false_eq_true, if_false]
      exact ih

/-- `chunk_text` on a 60-character single-chunk text. -/
theorem chunk_text_60a :
    chunk_text (List.replicate 60 'a') 1000 200 = [List.replicate 60 'a'] := by decide

/-! ### C3 — indexing a single too-short document -/

/-- C3: `index_course_content(7, "Algebra", [{"content": "x"*10}])` produces
zero points and fails with the no-content error; at the moment of failure
the course's collection has been deleted and recreated and is left existing
but empty. -/
theorem index_course_no_content_left_empty (st : Store)
    (embed : List Char → Except Unit (List Int)) :
    (index_course_content embed st 7 "Algebra"
        [{ content := some (List.replicate 10 'x') }]).2 =
      Except.error (IndexError.noContent
        "No valid content to index. All documents were empty or too short.") ∧
    lookupCollection
        (index_course_content embed st 7 "Algebra"
          [{ content := some (List.replicate 10 'x') }]).1 (collectionName 7) =
      some ⟨VECTOR_SIZE, []⟩ := by
  have hx : listTrim (List.replicate 10 'x') = List.replicate 10 'x' :=
    listTrim_replicate 10 'x' (by decide)
  have hpd : processDocs embed 7 "Algebra"
      [{ content := some (List.replicate 10 'x') }] 0 0 0 = ([], 0, 0) := by
    norm_num [processDocs, hx]
  constructor
  · simp only [index_course_content, hpd, List.isEmpty_nil, if_true]
  · simp only [index_course_content, hpd, List.isEmpty_nil, if_true]
    exact lookup_recreate st (collectionName 7)

/-! ### C4 — `documents_processed` counts skipped documents -/

/-- C4 (counterexample): with one 60-character and one 10-character document
the indexing result reports `documents_processed = 2`, the input-list
length, while only 1 document meets the 50-character floor. -/
theorem index_documents_processed_counterexample :
    (index_course_content embedOk1 [] 1 "C" [docLongA, docShortB]).2 =
      Except.ok ⟨true, 1, "C", 2, 1, 60, "course_1_chunks"⟩ ∧
    ([docLongA, docShortB].filter
      (fun d => 50 ≤ (listTrim (d.content.getD [])).length)).length = 1 ∧
    (2 : Nat) ≠ 1 := by decide

/-- Documents below the 50-character floor contribute nothing: no chunks, no
embedding calls, no content count. -/
theorem processDocs_skip_short (embed : List Char → Except Unit (List Int))
    (cid : Int) (cn : String) (doc : Document) (rest : List Document)
    (di pid tot : Nat) (hshort : (listTrim (doc.content.getD [])).length < 50) :
    processDocs embed cid cn (doc :: rest) di pid tot =
      processDocs embed cid cn rest (di + 1) pid tot := by
  simp only [processDocs]
  rw [if_pos (Or.inr hshort)]

/-- On success, `documents_processed` is always the input-list length. -/
theorem index_ok_documents_processed (embed : List Char → Except Unit (List Int))
    (st : Store) (cid : Int) (cn : String) (docs : List Document) (r : IndexResult)
    (h : (index_course_content embed st cid cn docs).2 = Except.ok r) :
    r.documents_processed = docs.length := by
  unfold index_course_content at h
  by_cases he : (processDocs embed cid cn docs 0 0 0).1.isEmpty
  · simp only [he, if_true] at h
    simp at h
  · simp only [he, Bool.false_eq_true, if_false] at h
    rw [Except.ok.injEq] at h
    rw [← h]

/-- C4 (amended): a document whose stripped content is shorter than 50
characters is skipped entirely — it produces no chunks, no embedding calls
and no content-length contribution — but the returned `documents_processed`
statistic is the length of the input list, counting skipped documents. -/
theorem index_course_skips_short_but_counts_all
    (embed : List Char → Except Unit (List Int)) (st : Store) (cid : Int)
    (cn : String) (docs : List Document) (r : IndexResult)
    (h : (index_course_content embed st cid cn docs).2 = Except.ok r)
    (doc : Document) (rest : List Document) (di pid tot : Nat)
    (hshort : (listTrim (doc.content.getD [])).length < 50) :
    r.documents_processed = docs.length ∧
    processDocs embed cid cn (doc :: rest) di pid tot =
      processDocs embed cid cn rest (di + 1) pid tot :=
  ⟨index_ok_documents_processed embed st cid cn docs r h,
   processDocs_skip_short embed cid cn doc rest di pid tot hshort⟩

/-- Witness for the amended C4 at a concrete two-document input. -/
theorem index_course_skips_short_but_counts_all_witness :
    (⟨true, 1, "C", 2, 1, 60, "course_1_chunks"⟩ : IndexResult).documents_processed =
      [docLongA, docShortB].length ∧
    processDocs embedOk1 1 "C" [docShortB] 0 0 0 =
      processDocs embedOk1 1 "C" [] 1 0 0 :=
  index_course_skips_short_but_counts_all embedOk1 [] 1 "C" [docLongA, docShortB]
    ⟨true, 1, "C", 2, 1, 60, "course_1_chunks"⟩ (by decide) docShortB [] 0 0 0 (by decide)

/-! ### C7 — embedding failures during indexing are masked per chunk -/

/-- C7 (counterexample): the embedding provider fails on the only chunk of
the second document, yet indexing reports success with the partial result
(1 of 2 chunks), so the failure is not surfaced. -/
theorem embed_failure_reported_success :
    embedFailB (List.replicate 60 'b') = Except.error () ∧
    chunk_text (List.replicate 60 'b') 1000 200 = [List.replicate 60 'b'] ∧
    (index_course_content embedFailB [] 1 "C" [docLongA, docLongB]).2 =
      Except.ok ⟨true, 1, "C", 2, 1, 120, "course_1_chunks"⟩ := by decide

/-- A chunk whose embedding fails is skipped and contributes nothing. -/
theorem processChunks_skip_failed (embed : List Char → Except Unit (List Int))
    (cid : Int) (cn src ty : String) (di : Nat) (chunk : List Char)
    (rest : List (List Char)) (ci pid : Nat) (h : embed chunk = Except.error ()) :
    processChunks embed cid cn src ty di (chunk :: rest) ci pid =
      processChunks embed cid cn src ty di rest (ci + 1) pid := by
  simp only [processChunks, h]

theorem processChunks_all_fail (cid : Int) (cn src ty : String) (di : Nat) :
    ∀ (l : List (List Char)) (ci pid : Nat),
      processChunks (fun _ => Except.error ()) cid cn src ty di l ci pid = ([], pid) := by
  intro l
  induction l with
  | nil => intro ci pid; rfl
  | cons c t ih =>
    intro ci pid
    simp only [processChunks]
    exact ih (ci + 1) pid

theorem processDocs_all_fail (cid : Int) (cn : String) :
    ∀ (docs : List Document) (di pid tot : Nat),
      (processDocs (fun _ => Except.error ()) cid cn docs di pid tot).1 = [] := by
  intro docs
  induction docs with
  | nil => intro di pid tot; rfl
  | cons d t ih =>
    intro di pid tot
    simp only [processDocs]
    by_cases hc : (listTrim (d.content.getD [])).length = 0 ∨
        (listTrim (d.content.getD [])).length < 50
    · rw [if_pos hc]; exact ih _ _ _
    · rw [if_neg hc]
      simp only [processChunks_all_fail, List.nil_append]
      exact ih _ _ _

/-- When every embedding call fails, zero points are produced and indexing
fails with the no-content error. -/
theorem index_all_embed_fail (st : Store) (cid : Int) (cn : String)
    (docs : List Document) :
    (index_course_content (fun _ => Except.error ()) st cid cn docs).2 =
      Except.error (IndexError.noContent
        "No valid content to index. All documents were empty or too short.") := by
  unfold index_course_content
  simp only [processDocs_all_fail, List.isEmpty_nil, if_true]

/-- C7 (amended): an embedding failure on a chunk is caught and the chunk
skipped (indexing continues and the partial result is reported as success);
the failure surfaces only when no chunk at all embeds — zero points produce
the no-content error. -/
theorem embed_failure_chunk_skipped
    (embed : List Char → Except Unit (List Int)) (cid : Int) (cn src ty : String)
    (di : Nat) (chunk : List Char) (rest : List (List Char)) (ci pid : Nat)
    (h : embed chunk = Except.error ()) :
    processChunks embed cid cn src ty di (chunk :: rest) ci pid =
      processChunks embed cid cn src ty di rest (ci + 1) pid ∧
    ∀ (st : Store) (docs : List Document),
      (index_course_content (fun _ => Except.error ()) st cid cn docs).2 =
        Except.error (IndexError.noContent
          "No valid content to index. All documents were empty or too short.") :=
  ⟨processChunks_skip_failed embed cid cn src ty di chunk rest ci pid h,
   fun st docs => index_all_embed_fail st cid cn docs⟩

/-- Witness for the amended C7 at the failing provider `embedFailB`. -/
theorem embed_failure_chunk_skipped_witness :
    processChunks embedFailB 1 "C" "Unknown" "text" 0 [List.replicate 60 'b'] 0 0 =
      processChunks embedFailB 1 "C" "Unknown" "text" 0 [] 1 0 :=
  (embed_failure_chunk_skipped embedFailB 1 "C" "Unknown" "text" 0
    (List.replicate 60 'b') [] 0 0 (by decide)).1

/-! ### C9 — no vector-length validation at point creation -/

/-- C9 (counterexample): a 2-component embedding vector (the collection is
configured with `VECTOR_SIZE = 384`) is stored without any rejection and the
operation reports success. -/
theorem vector_length_mismatch_accepted :
    (index_course_content embedLen2 [] 1 "C" [docLongA]).2 =
      Except.ok ⟨true, 1, "C", 1, 1, 60, "course_1_chunks"⟩ ∧
    lookupCollection (index_course_content embedLen2 [] 1 "C" [docLongA]).1
        "course_1_chunks" =
      some ⟨VECTOR_SIZE,
        [⟨0, [1, 2], ⟨List.replicate 60 'a', 1, "C", "Unknown", "text", 0, 0⟩⟩]⟩ ∧
    ([1, 2] : List Int).length ≠ VECTOR_SIZE := by decide

/-- C9 (amended): the indexing pipeline performs no vector-length validation
at point-creation time: whatever vector the embedding provider returns, even
of length different from the collection's configured `VECTOR_SIZE`, is
stored unchanged and the operation reports success; dimension enforcement is
left entirely to the external vector-store backend. -/
theorem index_accepts_any_vector_length (v : List Int) (st : Store) (cid : Int)
    (cn : String) (hv : v.length ≠ VECTOR_SIZE) :
    lookupCollection
        (index_course_content (fun _ => Except.ok v) st cid cn [docLongA]).1
        (collectionName cid) =
      some ⟨VECTOR_SIZE,
        [⟨0, v, ⟨List.replicate 60 'a', cid, cn, "Unknown", "text", 0, 0⟩⟩]⟩ ∧
    (index_course_content (fun _ => Except.ok v) st cid cn [docLongA]).2 =
      Except.ok ⟨true, cid, cn, 1, 1, 60, collectionName cid⟩ := by
  have ha : listTrim (List.replicate 60 'a') = List.replicate 60 'a' :=
    listTrim_replicate 60 'a' (by decide)
  have hpd : processDocs (fun _ => Except.ok v) cid cn [docLongA] 0 0 0 =
      ([⟨0, v, ⟨List.replicate 60 'a', cid, cn, "Unknown", "text", 0, 0⟩⟩], 1, 60) := by
    norm_num [processDocs, processChunks, ha, chunk_text_60a, docLongA]
  constructor
  · simp only [index_course_content, hpd, List.isEmpty_cons, Bool.false_eq_true, if_false]
    rw [lookup_upsert, lookup_recreate]
    simp [upsertPoints]
  · simp only [index_course_content, hpd, List.isEmpty_cons, Bool.false_eq_true, if_false,
      List.length_singleton]

/-- Witness for the amended C9 at the 2-component vector. -/
theorem index_accepts_any_vector_length_witness :
    ([1, 2] : List Int).length ≠ VECTOR_SIZE ∧
    lookupCollection
        (index_course_content (fun _ => Except.ok [1, 2]) [] 1 "C" [docLongA]).1
        (collectionName 1) =
      some ⟨VECTOR_SIZE,
        [⟨0, [1, 2], ⟨List.replicate 60 'a', 1, "C", "Unknown", "text", 0, 0⟩⟩]⟩ :=
  ⟨by decide, (index_accepts_any_vector_length [1, 2] [] 1 "C" (by decide)).1⟩

/-! ### C1 — answering for a never-indexed course -/

/-- C1: for every course whose status lookup does not yield a positive point
count (collection absent, present with 0 points, or the lookup raising a
storage error), `chat` returns the non-empty general-knowledge answer and no
error: the status check converts every storage failure to not-indexed and
the request is routed to the AI completion path. -/
theorem chat_not_indexed_falls_back (st : StoreStatus)
    (h : ∀ n, st = StoreStatus.present n → n = 0)
    (embedQ : Except Unit (List Int)) (search : Except Unit (List Hit))
    (llm : String → Except Unit String) (cid : Int) (cn q a : String)
    (hl : llm (aiPrompt cn (pyStrip q)) = Except.ok a) (ha : a ≠ "") :
    chat st embedQ search llm cid cn q = ChatResult.success a "ai" ∧ a ≠ "" ∧
    ((get_course_status st cid).indexed = false ∨
      (get_course_status st cid).chunks = 0) := by
  cases st with
  | unreachable =>
    exact ⟨by simp [chat, get_course_status, aiFallback, hl], ha, Or.inl rfl⟩
  | absent =>
    exact ⟨by simp [chat, get_course_status, aiFallback, hl], ha, Or.inl rfl⟩
  | present n =>
    have hn := h n rfl
    subst hn
    exact ⟨by simp [chat, get_course_status, aiFallback, hl], ha, Or.inr rfl⟩

/-- Witness for C1: vector store unreachable, completion provider reachable. -/
theorem chat_not_indexed_falls_back_witness :
    chat StoreStatus.unreachable (Except.ok []) (Except.ok []) llmConst 3 "Math" "hi" =
      ChatResult.success "General knowledge answer." "ai" ∧
    "General knowledge answer." ≠ "" ∧
    ((get_course_status StoreStatus.unreachable 3).indexed = false ∨
      (get_course_status StoreStatus.unreachable 3).chunks = 0) :=
  chat_not_indexed_falls_back StoreStatus.unreachable (fun n hn => by cases hn)
    (Except.ok []) (Except.ok []) llmConst 3 "Math" "hi" "General knowledge answer."
    rfl (by decide)

/-! ### C5 — indexed course, search failure vs. zero hits -/

/-- C5 (counterexample): for an indexed course (5 points) whose similarity
search returns zero hits, `chat` returns the fixed apology string in RAG
mode; the answer is not the completion provider's output (the provider used
here answers every prompt with the fixed string "General knowledge
answer.") — refuting the claim that the zero-hit case falls back to the
general-knowledge prompt. -/
theorem chat_zero_hits_fixed_message :
    chat (StoreStatus.present 5) (Except.ok []) (Except.ok []) llmConst 1 "C" "q" =
      ChatResult.success noRelevantMsg "rag" ∧
    llmConst (aiPrompt "C" (pyStrip "q")) = Except.ok "General knowledge answer." ∧
    noRelevantMsg ≠ "General knowledge answer." ∧
    "rag" ≠ "ai" := by decide

/-- C5 (amended): for an indexed course, a similarity search that raises is
caught by `chat` and answered through the general-knowledge fallback, but a
search that returns zero hits makes `rag_answer` return a fixed apology
message which `chat` reports in RAG mode — no completion-provider fallback
happens in the zero-hit case. -/
theorem chat_search_error_fallback_zero_hits_fixed (n : Nat) (hn : 0 < n)
    (v : List Int) (llm : String → Except Unit String) (cid : Int) (cn q a : String)
    (hl : llm (aiPrompt cn (pyStrip q)) = Except.ok a) :
    chat (StoreStatus.present n) (Except.ok v) (Except.error ()) llm cid cn q =
      ChatResult.success a "ai" ∧
    chat (StoreStatus.present n) (Except.ok v) (Except.ok []) llm cid cn q =
      ChatResult.success noRelevantMsg "rag" := by
  have hn' : ¬ n = 0 := by omega
  constructor
  · simp [chat, get_course_status, rag_answer, aiFallback, hl, hn', hn]
  · simp [chat, get_course_status, rag_answer, hn', hn]

/-- Witness for the amended C5 at a 3-point collection. -/
theorem chat_search_error_fallback_zero_hits_fixed_witness :
    (0 : Nat) < 3 ∧
    chat (StoreStatus.present 3) (Except.ok []) (Except.error ()) llmConst 1 "C" "q" =
      ChatResult.success "General knowledge answer." "ai" ∧
    chat (StoreStatus.present 3) (Except.ok []) (Except.ok []) llmConst 1 "C" "q" =
      ChatResult.success noRelevantMsg "rag" :=
  ⟨by decide,
    chat_search_error_fallback_zero_hits_fixed 3 (by decide) [] llmConst 1 "C" "q"
      "General knowledge answer." rfl⟩

/-! ### C6 — quiz validation round-trip -/

theorem filterMap_eq_map_of_forall {α β : Type} (f : α → Option β) (g : α → β) :
    ∀ l : List α, (∀ x ∈ l, f x = some (g x)) → l.filterMap f = l.map g := by
  intro l
  induction l with
  | nil => intro _; rfl
  | cons a t ih =>
    intro h
    rw [List.filterMap_cons, h a (by simp), List.map_cons,
      ih (fun x hx => h x (by simp [hx]))]

/-- A schema-correct parsed question passes validation unchanged. -/
theorem validateQuestion_wf (q : RawQuestion) (h : wellFormedQ q = true) :
    validateQuestion q = some (asQuiz q) := by
  obtain ⟨qq, qo, qc, qe⟩ := q
  cases qq with
  | none => simp [wellFormedQ] at h
  | some qs =>
    cases qo with
    | none => simp [wellFormedQ] at h
    | some opts =>
      cases qc with
      | none => simp [wellFormedQ] at h
      | some ca =>
        cases qe with
        | none => simp [wellFormedQ] at h
        | some ex =>
          simp only [wellFormedQ, Bool.and_eq_true, beq_iff_eq] at h
          obtain ⟨⟨hkeys, hceq⟩, hcont⟩ := h
          simp only [validateQuestion, hkeys, if_true, hceq, hcont, asQuiz,
            Option.getD_some]

/-- C6: a parsed JSON array of exactly `count` schema-correct questions
(keys present, option keys exactly the uppercase A–D set, correct answer
already uppercase and among A–D) is returned unchanged and in order by the
quiz validation stage, all `count` of it. -/
theorem generate_quiz_roundtrip (count : Nat) (data : List RawQuestion)
    (hcount : data.length = count) (hpos : 1 ≤ count)
    (hwf : ∀ q ∈ data, wellFormedQ q = true) :
    generate_quiz_validate count data = Except.ok (data.map asQuiz) ∧
    (data.map asQuiz).length = count := by
  have hmin : quizMin count ≤ count := by unfold quizMin; omega
  have hvmap : data.filterMap validateQuestion = data.map asQuiz :=
    filterMap_eq_map_of_forall _ _ data (fun x hx => validateQuestion_wf x (hwf x hx))
  constructor
  · unfold generate_quiz_validate
    rw [if_neg (by omega)]
    rw [hvmap]
    rw [if_neg (by rw [List.length_map, hcount]; omega)]
    rw [List.take_of_length_le (by rw [List.length_map, hcount])]
  · rw [List.length_map, hcount]

/-- Witness for C6 at a concrete one-question array. -/
theorem generate_quiz_roundtrip_witness :
    [q0].length = 1 ∧ (∀ q ∈ [q0], wellFormedQ q = true) ∧
    generate_quiz_validate 1 [q0] = Except.ok ([q0].map asQuiz) :=
  ⟨rfl, by decide, (generate_quiz_roundtrip 1 [q0] rfl (by decide) (by decide)).1⟩

/-! ### C8 — chunk walk advances, terminates and covers the text -/

theorem startsGo_head (textLen size overlap fuel start : Nat) :
    startsGo textLen size overlap fuel start = [] ∨
    ∃ t, startsGo textLen size overlap fuel start = start :: t := by
  cases fuel with
  | zero => exact Or.inl rfl
  | succ f =>
    by_cases hs : start < textLen
    · simp only [startsGo]
      rw [if_pos hs]
      exact Or.inr ⟨_, rfl⟩
    · simp only [startsGo]
      rw [if_neg hs]
      exact Or.inl rfl

/-- Consecutive window starts strictly increase, each step advancing by
`size - overlap`. -/
theorem startsGo_chain (textLen size overlap : Nat) (h : overlap < size) :
    ∀ (fuel start : Nat),
      List.Chain' (fun a b => a < b ∧ b = a + (size - overlap))
        (startsGo textLen size overlap fuel start) := by
  intro fuel
  induction fuel with
  | zero => intro start; exact List.chain'_nil
  | succ f ih =>
    intro start
    simp only [startsGo]
    by_cases hs : start < textLen
    · simp only [hs, if_true]
      by_cases hn : start + size - overlap < textLen
      · simp only [hn, if_true]
        rw [List.chain'_cons']
        refine ⟨?_, ih (start + size - overlap)⟩
        intro b hb
        rcases startsGo_head textLen size overlap f (start + size - overlap) with
          he | ⟨t, ht⟩
        · rw [he] at hb
          simp at hb
        · rw [ht] at hb
          simp only [List.head?_cons, Option.mem_def, Option.some.injEq] at hb
          subst hb
          constructor <;> omega
      · simp only [hn, if_false]
        exact List.chain'_singleton _
    · simp only [hs, if_false]
      exact List.chain'_nil

/-- Every multiple of the step below the text length is a visited start. -/
theorem startsGo_mem (textLen size overlap : Nat) (h : overlap < size) :
    ∀ (i fuel start : Nat), textLen - start < fuel →
      start + i * (size - overlap) < textLen →
      start + i * (size - overlap) ∈ startsGo textLen size overlap fuel start := by
  intro i
  induction i with
  | zero =>
    intro fuel start hf hlt
    cases fuel with
    | zero => omega
    | succ f =>
      simp only [Nat.zero_mul, Nat.add_zero] at hlt ⊢
      simp only [startsGo, hlt, if_true]
      exact List.mem_cons_self _ _
  | succ i ih =>
    intro fuel start hf hlt
    cases fuel with
    | zero => omega
    | succ f =>
      have hs : start < textLen :=
        Nat.lt_of_le_of_lt (Nat.le_add_right _ _) hlt
      have hassoc : start + size - overlap = start + (size - overlap) := by omega
      have heq : start + (i + 1) * (size - overlap) =
          (start + (size - overlap)) + i * (size - overlap) := by ring
      have hnextlt : start + (size - overlap) < textLen := by
        have h3 : start + (size - overlap) ≤ start + (i + 1) * (size - overlap) := by
          rw [heq]
          exact Nat.le_add_right _ _
        exact Nat.lt_of_le_of_lt h3 hlt
      simp only [startsGo, hs, if_true, hassoc, hnextlt]
      rw [heq]
      refine List.mem_cons_of_mem _ (ih f (start + (size - overlap)) (by omega) ?_)
      rw [← heq]
      exact hlt

/-- Every text position below the length is inside some visited window. -/
theorem chunkStarts_cover (textLen size overlap : Nat) (h : overlap < size) :
    ∀ k, k < textLen →
      ∃ s ∈ chunkStarts textLen size overlap, s ≤ k ∧ k < s + size := by
  intro k hk
  have hstep : 0 < size - overlap := by omega
  refine ⟨(k / (size - overlap)) * (size - overlap), ?_,
    Nat.div_mul_le_self k (size - overlap), ?_⟩
  · unfold chunkStarts
    have hmem := startsGo_mem textLen size overlap h (k / (size - overlap))
      (textLen + 1) 0 (by omega)
      (by simpa using Nat.lt_of_le_of_lt (Nat.div_mul_le_self k (size - overlap)) hk)
    simpa using hmem
  · have h2 := Nat.div_add_mod k (size - overlap)
    have h1 := Nat.mod_lt k hstep
    have hlt2 : k < (k / (size - overlap)) * (size - overlap) + (size - overlap) :=
      calc k = (size - overlap) * (k / (size - overlap)) + k % (size - overlap) :=
            h2.symm
        _ < (size - overlap) * (k / (size - overlap)) + (size - overlap) :=
            Nat.add_lt_add_left h1 _
        _ = (k / (size - overlap)) * (size - overlap) + (size - overlap) := by
            rw [Nat.mul_comm]
    exact Nat.lt_of_lt_of_le hlt2
      (Nat.add_le_add_left (Nat.sub_le size overlap) _)

/-- The chunks are exactly the noise-filtered windows at the visited starts. -/
theorem chunkGo_eq_starts (text : List Char) (size overlap : Nat) :
    ∀ (fuel start : Nat),
      chunkGo text size overlap fuel start =
        ((startsGo text.length size overlap fuel start).map
          (fun s => listTrim ((text.drop s).take size))).filter keepChunk := by
  intro fuel
  induction fuel with
  | zero => intro start; rfl
  | succ f ih =>
    intro start
    simp only [chunkGo, startsGo]
    by_cases hs : start < text.length
    · simp only [hs, if_true, List.map_cons, List.filter_cons]
      by_cases hp : (listTrim ((text.drop start).take size)).length ≠ 0 ∧
          50 < (listTrim ((text.drop start).take size)).length
      · have hk : keepChunk (listTrim ((text.drop start).take size)) = true :=
          decide_eq_true hp
        rw [if_pos hp, hk, if_pos rfl]
        by_cases hn : start + size - overlap < text.length
        · simp only [hn, if_true, ih (start + size - overlap)]
        · simp only [hn, if_false, List.map_nil, List.filter_nil]
      · have hk : keepChunk (listTrim ((text.drop start).take size)) = false :=
          decide_eq_false hp
        rw [if_neg hp, hk]
        simp only [Bool.false_eq_true, if_false]
        by_cases hn : start + size - overlap < text.length
        · simp only [hn, if_true, ih (start + size - overlap)]
        · simp only [hn, if_false, List.map_nil, List.filter_nil]
    · simp only [hs, if_false, List.map_nil, List.filter_nil]

/-- C8: for every text, size > 0 and 0 ≤ overlap < size, the `chunk_text`
loop terminates (the result is independent of any sufficient fuel) and its
window starts strictly increase by `size - overlap` each step; the chunks
are the filtered windows at those starts, and the successive windows cover
every position of the text with no gap. -/
theorem chunk_text_advances_and_covers (text : List Char) (size overlap : Nat)
    (h : overlap < size) :
    (∀ fuel, text.length < fuel →
      chunkGo text size overlap fuel 0 = chunk_text text size overlap) ∧
    List.Chain' (fun a b => a < b ∧ b = a + (size - overlap))
      (chunkStarts text.length size overlap) ∧
    chunk_text text size overlap =
      ((chunkStarts text.length size overlap).map
        (fun s => listTrim ((text.drop s).take size))).filter keepChunk ∧
    (∀ k, k < text.length →
      ∃ s ∈ chunkStarts text.length size overlap, s ≤ k ∧ k < s + size) := by
  refine ⟨?_, startsGo_chain text.length size overlap h (text.length + 1) 0,
    chunkGo_eq_starts text size overlap (text.length + 1) 0,
    chunkStarts_cover text.length size overlap h⟩
  intro fuel hfuel
  exact chunkGo_fuel_congr text size overlap h fuel (text.length + 1) 0
    (by omega) (by omega)

/-- Witness for C8 at a 5-character text with size 3 and overlap 1. -/
theorem chunk_text_advances_and_covers_witness :
    (1 : Nat) < 3 ∧
    List.Chain' (fun a b => a < b ∧ b = a + (3 - 1))
      (chunkStarts (List.replicate 5 'a').length 3 1) :=
  ⟨by decide, (chunk_text_advances_and_covers (List.replicate 5 'a') 3 1 (by decide)).2.1⟩
